import Mathlib

/-!
Verification of the core of the alchemy client library (src/token.ts):
the fixed-point threshold arithmetic of `Proposal.state`, the
`Arc.ethBalance` subscription multiplexer, the error classification of
`Proposal.stake` / `Proposal.vote` / `Proposal.execute`, and the `Token`
constructor guard.  Each TypeScript fragment is embedded shallowly as a
Lean definition; theorems relate the embeddings to the specified
behaviour.
-/

/-! ## Threshold arithmetic (Proposal.state itemMap) -/

/-- Lifecycle stages of a proposal, as in `enum IProposalStage`. -/
inductive IProposalStage where
  | ExpiredInQueue
  | Executed
  | Queued
  | PreBoosted
  | Boosted
  | QuietEndingPeriod
deriving DecidableEq, Repr

/-- Fixed-point precision constant: `const PRECISION = Math.pow(2, 40)`. -/
def PRECISION : Nat := 2 ^ 40

/-- Embedding of the `upstakeNeededToPreBoost` computation of
`Proposal.state`'s `itemMap`.  The code initialises the value to
`new BN(0)` and, only when the stage is `Queued`, computes
`new BN(threshold * PRECISION).mul(stakesAgainst).div(new BN(PRECISION)).sub(stakesFor)`.
The big-number product `threshold * PRECISION` is passed in as the integer
`thresholdTimesP` (exact whenever the threshold ratio is a dyadic rational
with at most 40 fractional bits, e.g. `threshold = 0.5` gives `2 ^ 39`);
`BN` division truncates, which on the non-negative operands here is `Nat`
division. -/
def upstakeNeededToPreBoost (stage : IProposalStage)
    (thresholdTimesP stakesFor stakesAgainst : Nat) : Int :=
  if stage = IProposalStage.Queued then
    ((thresholdTimesP * stakesAgainst / PRECISION : Nat) : Int) - (stakesFor : Int)
  else 0

/-- Embedding of the `downStakeNeededToQueue` computation of
`Proposal.state`'s `itemMap`: initialised to `new BN(0)` and, only when
the stage is `PreBoosted`, computed as
`stakesFor.mul(new BN(PRECISION)).div(new BN(threshold * PRECISION)).sub(stakesAgainst)`. -/
def downStakeNeededToQueue (stage : IProposalStage)
    (thresholdTimesP stakesFor stakesAgainst : Nat) : Int :=
  if stage = IProposalStage.PreBoosted then
    ((stakesFor * PRECISION / thresholdTimesP : Nat) : Int) - (stakesAgainst : Int)
  else 0

/-- Transcription of the spec sentence for the advance-delta:
"Upstake needed to advance = (threshold × P) × stakesAgainst / P − stakesFor,
computed with arbitrary-precision integers throughout". -/
def specAdvanceDelta (thresholdTimesP stakesFor stakesAgainst : Nat) : Int :=
  ((thresholdTimesP * stakesAgainst / PRECISION : Nat) : Int) - (stakesFor : Int)

/-- Transcription of the spec sentence for the fallback-delta:
"Downstake needed to fall back = stakesFor × P / (threshold × P) − stakesAgainst". -/
def specFallbackDelta (thresholdTimesP stakesFor stakesAgainst : Nat) : Int :=
  ((stakesFor * PRECISION / thresholdTimesP : Nat) : Int) - (stakesAgainst : Int)

/-- C1: for every Queued proposal the advance-delta equals
`(t × P) × stakesAgainst / P − stakesFor` with `P = 2 ^ 40`; with
`t = 0.5` (so `t × P = 2 ^ 39`), `stakesFor = 100`, `stakesAgainst = 300`
it equals `50`, and with `stakesAgainst = 150` it equals `−25`, returned
unclamped. -/
theorem c1_upstake_advance_delta :
    (∀ tP F A : Nat,
        upstakeNeededToPreBoost IProposalStage.Queued tP F A = specAdvanceDelta tP F A) ∧
    upstakeNeededToPreBoost IProposalStage.Queued (2 ^ 39) 100 300 = 50 ∧
    upstakeNeededToPreBoost IProposalStage.Queued (2 ^ 39) 100 150 = -25 := by
  refine ⟨fun tP F A => ?_, by decide, by decide⟩
  simp [upstakeNeededToPreBoost, specAdvanceDelta]

/-- C2: for every PreBoosted proposal the fallback-delta equals
`stakesFor × P / (t × P) − stakesAgainst` with `P = 2 ^ 40`, and the
result may be negative (with `t = 0.5`, `stakesFor = 100`,
`stakesAgainst = 300` it is `−100`). -/
theorem c2_downstake_fallback_delta :
    (∀ tP F A : Nat,
        downStakeNeededToQueue IProposalStage.PreBoosted tP F A = specFallbackDelta tP F A) ∧
    downStakeNeededToQueue IProposalStage.PreBoosted (2 ^ 39) 100 300 = -100 := by
  refine ⟨fun tP F A => ?_, by decide⟩
  simp [downStakeNeededToQueue, specFallbackDelta]

/-- C3: for every proposal whose stage is not Queued the advance-delta is
reported as zero, and for every proposal whose stage is not PreBoosted the
fallback-delta is reported as zero, whatever the stakes and threshold. -/
theorem c3_stage_gating :
    ∀ (stage : IProposalStage) (tP F A : Nat),
      (stage ≠ IProposalStage.Queued → upstakeNeededToPreBoost stage tP F A = 0) ∧
      (stage ≠ IProposalStage.PreBoosted → downStakeNeededToQueue stage tP F A = 0) := by
  intro stage tP F A
  refine ⟨fun h => ?_, fun h => ?_⟩
  · simp [upstakeNeededToPreBoost, h]
  · simp [downStakeNeededToQueue, h]

/-- C3 witness: a concrete Boosted proposal reports both deltas as zero. -/
theorem c3_stage_gating_witness :
    upstakeNeededToPreBoost IProposalStage.Boosted (2 ^ 39) 100 300 = 0 ∧
    downStakeNeededToQueue IProposalStage.Boosted (2 ^ 39) 100 300 = 0 :=
  ⟨(c3_stage_gating IProposalStage.Boosted (2 ^ 39) 100 300).1 (by decide),
   (c3_stage_gating IProposalStage.Boosted (2 ^ 39) 100 300).2 (by decide)⟩

/-! ## Subscription multiplexer (Arc.ethBalance) -/

/-- One entry of `Arc.observedAccounts`: whether the `observable` field is
set, the `lastBalance` field (`none` models JS `undefined`), and the
`subscriptionsCount` (an `Int`, since the JS number is decremented without
a lower bound). -/
structure ObservedRecord where
  hasObservable : Bool
  lastBalance : Option Int
  subscriptionsCount : Int
deriving DecidableEq, Repr

/-- State of an `Arc` instance as far as `ethBalance` is concerned: the
`observedAccounts` registry (an association list keyed by address) and
the number of live `blockHeaderSubscription` feeds (`0` models
`undefined`; the code holds at most one, which the theorems establish). -/
structure ArcState where
  observedAccounts : List (String × ObservedRecord)
  feedCount : Nat
deriving DecidableEq, Repr

/-- Fresh `Arc` state: no observed accounts, no block-header feed. -/
def emptyArc : ArcState := ⟨[], 0⟩

/-- Lookup of `this.observedAccounts[owner]`. -/
def lookupAcc : List (String × ObservedRecord) → String → Option ObservedRecord
  | [], _ => none
  | (k, r) :: rest, owner => if k = owner then some r else lookupAcc rest owner

/-- Assignment `this.observedAccounts[owner] = r` (replaces the entry if
present, appends it otherwise). -/
def setAcc : List (String × ObservedRecord) → String → ObservedRecord →
    List (String × ObservedRecord)
  | [], owner, r => [(owner, r)]
  | (k, r0) :: rest, owner, r =>
    if k = owner then (owner, r) :: rest else (k, r0) :: setAcc rest owner r

/-- Deletion `delete this.observedAccounts[owner]`. -/
def removeAcc (l : List (String × ObservedRecord)) (owner : String) :
    List (String × ObservedRecord) :=
  l.filter (fun e => e.1 != owner)

/-- First step of `ethBalance`: `if (!this.observedAccounts[owner])`
create the record `{ subscriptionsCount: 1 }`. -/
def ensureRecord (accounts : List (String × ObservedRecord)) (owner : String) :
    List (String × ObservedRecord) :=
  match lookupAcc accounts owner with
  | none => setAcc accounts owner ⟨false, none, 1⟩
  | some _ => accounts

/-- Second step of `ethBalance`: if the record already has an observable,
bump `subscriptionsCount`; otherwise the freshly created observable is
stored on the record. -/
def bumpOrAttach (accounts : List (String × ObservedRecord)) (owner : String) :
    List (String × ObservedRecord) :=
  match lookupAcc accounts owner with
  | some r =>
    if r.hasObservable then
      setAcc accounts owner { r with subscriptionsCount := r.subscriptionsCount + 1 }
    else
      setAcc accounts owner { r with hasObservable := true }
  | none => accounts

/-- Seed read of the subscription body: `web3.eth.getBalance(owner)`
resolves to `current`, which is emitted to the subscriber and stored in
`accInfo.lastBalance`. -/
def seedRecord (accounts : List (String × ObservedRecord)) (owner : String)
    (current : Int) : List (String × ObservedRecord) :=
  match lookupAcc accounts owner with
  | some r => setAcc accounts owner { r with lastBalance := some current }
  | none => accounts

/-- Embedding of one `observe` step: a call of `Arc.ethBalance(owner)`
followed by subscribing to the returned observable, where the seed read
returns `current`.  Returns the values emitted synchronously to the new
subscriber together with the new state; the subscription body creates the
`blockHeaderSubscription` feed only when none exists
(`if (!this.blockHeaderSubscription)`). -/
def observe (s : ArcState) (owner : String) (current : Int) : List Int × ArcState :=
  let accounts := seedRecord (bumpOrAttach (ensureRecord s.observedAccounts owner) owner)
    owner current
  ([current],
   { observedAccounts := accounts,
     feedCount := if s.feedCount = 0 then 1 else s.feedCount })

/-- Registry part of the unsubscribe teardown: decrement
`subscriptionsCount` and delete the record when the count drops to (or
below) zero. -/
def cancelAccounts (accounts : List (String × ObservedRecord)) (owner : String) :
    List (String × ObservedRecord) :=
  match lookupAcc accounts owner with
  | some r =>
    if r.subscriptionsCount - 1 ≤ 0 then removeAcc accounts owner
    else setAcc accounts owner { r with subscriptionsCount := r.subscriptionsCount - 1 }
  | none => accounts

/-- Embedding of the unsubscribe teardown returned by the subscription
body: decrement `subscriptionsCount`, delete the record when the count
drops to (or below) zero, and when the registry has become empty
unsubscribe and discard the block-header feed. -/
def cancel (s : ArcState) (owner : String) : ArcState :=
  let accounts := cancelAccounts s.observedAccounts owner
  if accounts = [] ∧ s.feedCount ≠ 0 then ⟨accounts, 0⟩ else ⟨accounts, s.feedCount⟩

/-- Iterated `observe` on one key (each call re-reads the same seed). -/
def observeN : Nat → ArcState → String → Int → ArcState
  | 0, s, _, _ => s
  | n + 1, s, owner, current => observeN n (observe s owner current).2 owner current

/-- Iterated `cancel` on one key. -/
def cancelN : Nat → ArcState → String → ArcState
  | 0, s, _ => s
  | n + 1, s, owner => cancelN n (cancel s owner) owner

/-- Embedding of one tick of the block-header feed over the registry
snapshot: for each entry, `web3.eth.getBalance(addr)` resolves to
`read addr`; `if (balance !== accInfo.lastBalance)` the balance is
emitted to the entry's observer and stored.  Returns the emissions (in
registry order) and the updated registry. -/
def processTick (read : String → Int) :
    List (String × ObservedRecord) → List (String × Int) × List (String × ObservedRecord)
  | [] => ([], [])
  | e :: rest =>
    let b := read e.1
    let (ems, recs) := processTick read rest
    if some b ≠ e.2.lastBalance then
      ((e.1, b) :: ems, (e.1, { e.2 with lastBalance := some b }) :: recs)
    else
      (ems, e :: recs)

/-- Run a sequence of feed ticks, each with its own balance read, and
collect every emission. -/
def runTicks (accounts : List (String × ObservedRecord)) :
    List (String → Int) → List (String × Int)
  | [] => []
  | read :: reads =>
    let (ems, recs) := processTick read accounts
    ems ++ runTicks recs reads

/-- Embedding of the error branch of the block-header callback: the error
is delivered to the observer of every address in the registry snapshot
(`Object.keys(this.observedAccounts).forEach`), and erroring an observer
finalises its subscription, running the teardown (`cancel`) for that
key.  Returns the keys whose listeners received the failure and the
resulting state. -/
def feedError (s : ArcState) : List String × ArcState :=
  let keys := s.observedAccounts.map Prod.fst
  (keys, keys.foldl cancel s)

/-! ## Helper lemmas about the multiplexer state -/

/-- State with exactly one observed account. -/
def singleAcc (owner : String) (b : Int) (n : Int) : ArcState :=
  ⟨[(owner, ⟨true, some b, n⟩)], 1⟩

theorem lookupAcc_mem {l : List (String × ObservedRecord)} {k : String}
    {r : ObservedRecord} (h : lookupAcc l k = some r) : (k, r) ∈ l := by
  induction l with
  | nil => simp [lookupAcc] at h
  | cons e rest ih =>
    obtain ⟨k0, r0⟩ := e
    by_cases hk : k0 = k
    · subst hk
      simp [lookupAcc] at h
      subst h
      exact List.mem_cons_self _ _
    · simp [lookupAcc, hk] at h
      exact List.mem_cons_of_mem _ (ih h)

theorem lookupAcc_none {l : List (String × ObservedRecord)} {k : String}
    (h : lookupAcc l k = none) : ∀ e ∈ l, e.1 ≠ k := by
  induction l with
  | nil => intro e he; simp at he
  | cons e0 rest ih =>
    obtain ⟨k0, r0⟩ := e0
    by_cases hk : k0 = k
    · subst hk; simp [lookupAcc] at h
    · simp [lookupAcc, hk] at h
      intro e he
      rcases List.mem_cons.mp he with he0 | he1
      · subst he0; exact hk
      · exact ih h e he1

theorem removeAcc_self {l : List (String × ObservedRecord)} {owner : String}
    (h : ∀ e ∈ l, e.1 ≠ owner) : removeAcc l owner = l := by
  rw [removeAcc, List.filter_eq_self]
  intro e he
  simpa using h e he

theorem mem_removeAcc {l : List (String × ObservedRecord)} {owner : String}
    {e : String × ObservedRecord} (h : e ∈ removeAcc l owner) :
    e ∈ l ∧ e.1 ≠ owner := by
  rw [removeAcc] at h
  have := List.mem_filter.mp h
  exact ⟨this.1, by simpa using this.2⟩

theorem cancelAccounts_all_one {accounts : List (String × ObservedRecord)}
    (h1 : ∀ e ∈ accounts, e.2.subscriptionsCount = 1) (owner : String) :
    cancelAccounts accounts owner = removeAcc accounts owner := by
  rw [cancelAccounts]
  cases hl : lookupAcc accounts owner with
  | none => exact (removeAcc_self (lookupAcc_none hl)).symm
  | some r =>
    have hr : r.subscriptionsCount = 1 := h1 (owner, r) (lookupAcc_mem hl)
    simp [hr]

theorem cancel_observedAccounts (s : ArcState) (owner : String) :
    (cancel s owner).observedAccounts = cancelAccounts s.observedAccounts owner := by
  rw [cancel]
  split <;> rfl

theorem cancel_feed_of_empty {s : ArcState} {owner : String}
    (h : cancelAccounts s.observedAccounts owner = []) :
    (cancel s owner).feedCount = 0 := by
  rw [cancel]
  by_cases hf : s.feedCount = 0
  · split <;> simp [hf]
  · rw [if_pos ⟨h, hf⟩]

theorem foldl_cancel_empties :
    ∀ (L : List String) (s : ArcState),
      (∀ e ∈ s.observedAccounts, e.2.subscriptionsCount = 1) →
      (∀ e ∈ s.observedAccounts, e.1 ∈ L) →
      (L.foldl cancel s).observedAccounts = [] := by
  intro L
  induction L with
  | nil =>
    intro s h1 hk
    cases hacc : s.observedAccounts with
    | nil => simpa using hacc
    | cons e rest =>
      exact absurd (hk e (by rw [hacc]; exact List.mem_cons_self _ _)) (by simp)
  | cons k L' ih =>
    intro s h1 hk
    have hstep : (cancel s k).observedAccounts = removeAcc s.observedAccounts k := by
      rw [cancel_observedAccounts, cancelAccounts_all_one h1]
    have h1' : ∀ e ∈ (cancel s k).observedAccounts, e.2.subscriptionsCount = 1 := by
      intro e he
      rw [hstep] at he
      exact h1 e (mem_removeAcc he).1
    have hk' : ∀ e ∈ (cancel s k).observedAccounts, e.1 ∈ L' := by
      intro e he
      rw [hstep] at he
      obtain ⟨hmem, hne⟩ := mem_removeAcc he
      rcases List.mem_cons.mp (hk e hmem) with h | h
      · exact absurd h hne
      · exact h
    exact ih (cancel s k) h1' hk'

theorem foldl_cancel_feed :
    ∀ (L : List String) (s : ArcState), L ≠ [] →
      (L.foldl cancel s).observedAccounts = [] → (L.foldl cancel s).feedCount = 0 := by
  intro L
  induction L with
  | nil => intro s h; exact absurd rfl h
  | cons k L' ih =>
    intro s _ hemp
    cases hL' : L' with
    | nil =>
      subst hL'
      refine cancel_feed_of_empty ?_
      rw [← cancel_observedAccounts]
      exact hemp
    | cons k2 L'' =>
      subst hL'
      exact ih (cancel s k) (by simp) hemp

theorem observe_empty (owner : String) (b : Int) :
    observe emptyArc owner b = ([b], singleAcc owner b 1) := by
  simp [observe, emptyArc, singleAcc, ensureRecord, bumpOrAttach, seedRecord,
    lookupAcc, setAcc]

theorem observe_single (owner : String) (b b' : Int) (n : Int) :
    observe (singleAcc owner b' n) owner b = ([b], singleAcc owner b (n + 1)) := by
  simp [observe, singleAcc, ensureRecord, bumpOrAttach, seedRecord, lookupAcc, setAcc]

theorem observeN_single (n : Nat) (owner : String) (b m : Int) :
    observeN n (singleAcc owner b m) owner b = singleAcc owner b (m + n) := by
  induction n generalizing m with
  | zero => simp [observeN]
  | succ j ih =>
    simp only [observeN, observe_single]
    rw [ih (m + 1)]
    congr 1
    push_cast
    ring

theorem cancel_single_low (owner : String) (b m : Int) (h : m ≤ 1) :
    cancel (singleAcc owner b m) owner = emptyArc := by
  have h' : m - 1 ≤ 0 := by omega
  simp [cancel, cancelAccounts, singleAcc, lookupAcc, removeAcc, emptyArc, h']

theorem cancel_single_high (owner : String) (b m : Int) (h : ¬ m ≤ 1) :
    cancel (singleAcc owner b m) owner = singleAcc owner b (m - 1) := by
  have h' : ¬ m - 1 ≤ 0 := by omega
  simp [cancel, cancelAccounts, singleAcc, lookupAcc, setAcc, h']

theorem cancelN_single (n : Nat) (owner : String) (b : Int) (h : 1 ≤ n) :
    cancelN n (singleAcc owner b (n : Int)) owner = emptyArc := by
  induction n with
  | zero => omega
  | succ j ih =>
    by_cases hj : j = 0
    · subst hj
      simp only [cancelN]
      rw [cancel_single_low owner b _ (by norm_num)]
    · have hj1 : 1 ≤ j := by omega
      have hgt : ¬ ((j + 1 : Nat) : Int) ≤ 1 := by push_cast; omega
      simp only [cancelN]
      rw [cancel_single_high owner b _ hgt]
      have hc : ((j + 1 : Nat) : Int) - 1 = (j : Int) := by push_cast; ring
      rw [hc]
      exact ih hj1

/-- C4: on every feed tick each registered key is freshly read, a value is
emitted to a key's listeners if and only if the newly read value differs
from the stored `lastBalance`, which is then updated; seeded with a value
other than `5`, the tick-read sequence `[5, 5, 7, 7, 7, 9]` produces
exactly the emissions `[5, 7, 9]`, with no repeated value. -/
theorem c4_tick_dedup :
    (∀ (read : String → Int) (accounts : List (String × ObservedRecord)),
        processTick read accounts =
          (accounts.filterMap fun e =>
             if some (read e.1) = e.2.lastBalance then none else some (e.1, read e.1),
           accounts.map fun e =>
             if some (read e.1) = e.2.lastBalance then e
             else (e.1, { e.2 with lastBalance := some (read e.1) }))) ∧
    (∀ seed : Int, seed ≠ 5 →
        runTicks [("k", ⟨true, some seed, 1⟩)]
          [fun _ => 5, fun _ => 5, fun _ => 7, fun _ => 7, fun _ => 7, fun _ => 9] =
          [("k", 5), ("k", 7), ("k", 9)]) := by
  constructor
  · intro read accounts
    induction accounts with
    | nil => simp [processTick]
    | cons e rest ih =>
      by_cases h : some (read e.1) = e.2.lastBalance
      · simp [processTick, ih, h]
      · simp [processTick, ih, h]
  · intro seed h
    have h5 : ¬ ((5 : Int) = seed) := fun hs => h hs.symm
    simp [runTicks, processTick, h5]

/-- C4 witness: seeding with `0` and reading `[5, 5, 7, 7, 7, 9]` emits
exactly `[5, 7, 9]`. -/
theorem c4_tick_dedup_witness :
    runTicks [("k", ⟨true, some 0, 1⟩)]
      [fun _ => 5, fun _ => 5, fun _ => 7, fun _ => 7, fun _ => 7, fun _ => 9] =
      [("k", 5), ("k", 7), ("k", 9)] :=
  c4_tick_dedup.2 0 (by decide)

/-- C5: at most one block-header feed exists at any time (`observe` and
`cancel` preserve the bound), the feed is created exactly when the
registry goes from empty to non-empty, and N `observe` calls on a key
followed by N `cancel` calls return the `Arc` to the fresh state: no
record for the key and no feed. -/
theorem c5_shared_feed_refcount :
    (∀ (s : ArcState) (owner : String) (current : Int), s.feedCount ≤ 1 →
        (observe s owner current).2.feedCount ≤ 1 ∧ (cancel s owner).feedCount ≤ 1) ∧
    (∀ (owner : String) (current : Int),
        (observe emptyArc owner current).2.feedCount = 1 ∧
        (observe emptyArc owner current).2.observedAccounts ≠ []) ∧
    (∀ (n : Nat) (owner : String) (current : Int),
        cancelN n (observeN n emptyArc owner current) owner = emptyArc ∧
        lookupAcc (cancelN n (observeN n emptyArc owner current) owner).observedAccounts
          owner = none) := by
  refine ⟨fun s owner current hle => ⟨?_, ?_⟩, fun owner current => ?_, ?_⟩
  · by_cases h0 : s.feedCount = 0 <;> simp [observe, h0, hle]
  · rw [cancel]
    split
    · exact Nat.zero_le 1
    · exact hle
  · rw [observe_empty]
    exact ⟨rfl, by simp [singleAcc]⟩
  · intro n owner current
    cases n with
    | zero => exact ⟨rfl, rfl⟩
    | succ j =>
      have hobs : observeN (j + 1) emptyArc owner current =
          singleAcc owner current ((j + 1 : Nat) : Int) := by
        simp only [observeN, observe_empty]
        rw [observeN_single]
        congr 1
        push_cast
        ring
      rw [hobs, cancelN_single (j + 1) owner current (by omega)]
      exact ⟨rfl, rfl⟩

/-- C5 witness: from a state that already has a feed, one more `observe`
and a `cancel` keep the feed count at most one. -/
theorem c5_shared_feed_refcount_witness :
    (observe ⟨[], 1⟩ "a" 5).2.feedCount ≤ 1 ∧ (cancel ⟨[], 1⟩ "a").feedCount ≤ 1 :=
  c5_shared_feed_refcount.1 ⟨[], 1⟩ "a" 5 (by decide)

/-- C8: a feed failure is delivered to the listeners of every
currently-registered key, and (each key holding one live subscription, the
registry being non-empty) the registry is emptied and the feed is torn
down. -/
theorem c8_feed_failure_broadcast :
    ∀ s : ArcState,
      (feedError s).1 = s.observedAccounts.map Prod.fst ∧
      ((∀ e ∈ s.observedAccounts, e.2.subscriptionsCount = 1) →
        s.observedAccounts ≠ [] →
        (feedError s).2.observedAccounts = [] ∧ (feedError s).2.feedCount = 0) := by
  intro s
  refine ⟨rfl, fun h1 hne => ?_⟩
  have hemp : ((s.observedAccounts.map Prod.fst).foldl cancel s).observedAccounts = [] :=
    foldl_cancel_empties (s.observedAccounts.map Prod.fst) s h1
      (fun e he => List.mem_map.mpr ⟨e, he, rfl⟩)
  refine ⟨hemp, foldl_cancel_feed _ s ?_ hemp⟩
  simpa using hne

/-- C8 witness: with one registered key holding one subscription, the feed
failure reaches that key and leaves an empty registry with no feed. -/
theorem c8_feed_failure_broadcast_witness :
    (feedError ⟨[("a", ⟨true, some 3, 1⟩)], 1⟩).1 = ["a"] ∧
    (feedError ⟨[("a", ⟨true, some 3, 1⟩)], 1⟩).2.observedAccounts = [] ∧
    (feedError ⟨[("a", ⟨true, some 3, 1⟩)], 1⟩).2.feedCount = 0 := by
  have h := c8_feed_failure_broadcast ⟨[("a", ⟨true, some 3, 1⟩)], 1⟩
  have h2 := h.2 (by decide) (by simp)
  exact ⟨h.1, h2.1, h2.2⟩

/-- C9: a subscriber joining a key whose record already holds a last-known
value receives the current balance synchronously from the seed read of the
subscription body, before any feed tick. -/
theorem c9_late_subscriber_replay :
    ∀ (s : ArcState) (owner : String) (v current : Int) (r : ObservedRecord),
      lookupAcc s.observedAccounts owner = some r → r.lastBalance = some v →
      (observe s owner current).1 = [current] := by
  intro s owner v current r _ _
  rfl

/-- C9 witness: with the record holding `7` and the balance still `7`, a
late subscriber receives `7` immediately. -/
theorem c9_late_subscriber_replay_witness :
    (observe ⟨[("k", ⟨true, some 7, 1⟩)], 1⟩ "k" 7).1 = [7] :=
  c9_late_subscriber_replay ⟨[("k", ⟨true, some 7, 1⟩)], 1⟩ "k" 7 7 ⟨true, some 7, 1⟩
    (by simp [lookupAcc]) rfl

/-! ## Receipt mappers and error classification -/

/-- Data of one emitted event (`event.returnValues`). -/
structure EventData where
  staker : String
  reputation : Int
deriving DecidableEq, Repr

/-- Transaction receipt: the named events it carries (`receipt.events`). -/
structure Receipt where
  events : List (String × EventData)
deriving DecidableEq, Repr

/-- Result of `Proposal.stake`'s `map`: the `Stake` built from the
`Stake` event. -/
structure StakeResult where
  staker : String
  amount : Int
deriving DecidableEq, Repr

/-- Embedding of `Proposal.stake`'s `map`: if `receipt.events.Stake` is
absent it throws (`Error staking: no "Stake" event was found`); otherwise
it builds the `Stake` from the event's return values. -/
def stakeResultMapper (r : Receipt) : Except String StakeResult :=
  match r.events.lookup "Stake" with
  | none => Except.error "Error staking: no Stake event was found"
  | some ev => Except.ok ⟨ev.staker, ev.reputation⟩

/-- Embedding of `Proposal.execute`'s `map`: whether or not
`receipt.events` is empty, the receipt itself is returned as the success
value (the empty-events branch is explicitly commented in the source as
not being a failure). -/
def executeResultMapper (r : Receipt) : Receipt :=
  if r.events.length = 0 then r else r

/-- C7: a confirmed receipt with no expected marker event is decided by
the result mapper, not treated as an automatic failure: the stake mapper
throws exactly when the `Stake` event is missing, while the execute
mapper returns the receipt as success even when no events were emitted. -/
theorem c7_result_mapper_policy :
    (∀ r : Receipt, r.events.lookup "Stake" = none →
        stakeResultMapper r = Except.error "Error staking: no Stake event was found") ∧
    (∀ (r : Receipt) (ev : EventData), r.events.lookup "Stake" = some ev →
        stakeResultMapper r = Except.ok ⟨ev.staker, ev.reputation⟩) ∧
    (∀ r : Receipt, executeResultMapper r = r) := by
  refine ⟨fun r h => ?_, fun r ev h => ?_, fun r => ?_⟩
  · rw [stakeResultMapper, h]
  · rw [stakeResultMapper, h]
  · rw [executeResultMapper]
    split <;> rfl

/-- C7 witness: an eventless receipt makes staking fail hard but leaves
execute successful. -/
theorem c7_result_mapper_policy_witness :
    stakeResultMapper ⟨[]⟩ = Except.error "Error staking: no Stake event was found" ∧
    executeResultMapper ⟨[]⟩ = ⟨[]⟩ :=
  ⟨c7_result_mapper_policy.1 ⟨[]⟩ rfl, c7_result_mapper_policy.2.2 ⟨[]⟩⟩

/-- Outcome of `Proposal.stake`'s `errorHandler`. -/
inductive StakeErrorResult where
  | unknownProposal
  | insufficientBalance
  | insufficientAllowance
  | original (err : String)
deriving DecidableEq, Repr

/-- Embedding of `Proposal.stake`'s `errorHandler`: when the error message
matches `/revert/` it reads the proposal from the voting machine and (in
this order) returns "Unknown proposal" when `prop.proposer` is the null
address, an insufficient-balance error when the staker's balance is below
the amount, an insufficient-allowance error when the allowance is below
the amount; in every other case the original error is returned.  The
regex match, the null-proposer read, and the two on-chain reads are passed
in as `hasRevert`, `proposerIsNull`, `balance` and `allowance`. -/
def stakeErrorHandler (err : String) (hasRevert proposerIsNull : Bool)
    (balance amount allowance : Nat) : StakeErrorResult :=
  if hasRevert then
    if proposerIsNull then StakeErrorResult.unknownProposal
    else if balance < amount then StakeErrorResult.insufficientBalance
    else if allowance < amount then StakeErrorResult.insufficientAllowance
    else StakeErrorResult.original err
  else StakeErrorResult.original err

/-- Outcome of `Proposal.vote`'s `errorHandler`. -/
inductive VoteErrorResult where
  | unknownProposal
  | alreadyExecuted
  | original (err : String)
deriving DecidableEq, Repr

/-- Embedding of `Proposal.vote`'s `errorHandler`: on a `/revert/` match
it returns "unknown proposal" when the proposer read back from the voting
machine is the null address, then "already executed" when the proposal
state reads `'2'`; otherwise the original error is returned. -/
def voteErrorHandler (err : String) (hasRevert proposerIsNull isExecuted : Bool) :
    VoteErrorResult :=
  if hasRevert then
    if proposerIsNull then VoteErrorResult.unknownProposal
    else if isExecuted then VoteErrorResult.alreadyExecuted
    else VoteErrorResult.original err
  else VoteErrorResult.original err

/-- C6: classification of a reverted write checks entity existence before
balance and allowance — a revert on a non-existent proposal classifies as
"unknown proposal" for every balance and allowance, including those that
would themselves fail the later checks — and when no specific cause is
found (and likewise when the message does not indicate a revert) the
original raw error is returned unchanged; the vote handler shows the same
precedence of existence over the already-executed check. -/
theorem c6_error_classification_precedence :
    (∀ (err : String) (b a al : Nat),
        stakeErrorHandler err true true b a al = StakeErrorResult.unknownProposal) ∧
    (∀ (err : String) (b a al : Nat), ¬ b < a → ¬ al < a →
        stakeErrorHandler err true false b a al = StakeErrorResult.original err) ∧
    (∀ (err : String) (pn : Bool) (b a al : Nat),
        stakeErrorHandler err false pn b a al = StakeErrorResult.original err) ∧
    (∀ (err : String) (ex : Bool),
        voteErrorHandler err true true ex = VoteErrorResult.unknownProposal) ∧
    (∀ err : String, voteErrorHandler err true false false = VoteErrorResult.original err) ∧
    (∀ (err : String) (pn ex : Bool),
        voteErrorHandler err false pn ex = VoteErrorResult.original err) := by
  refine ⟨fun err b a al => ?_, fun err b a al hb hal => ?_, fun err pn b a al => ?_,
    fun err ex => ?_, fun err => ?_, fun err pn ex => ?_⟩ <;>
    simp [stakeErrorHandler, voteErrorHandler, *]

/-- C6 witness: a revert on a non-existent proposal with a balance and an
allowance both below the staked amount still classifies as "unknown
proposal", and an unclassifiable revert returns the original error. -/
theorem c6_error_classification_precedence_witness :
    stakeErrorHandler "revert" true true 0 10 0 = StakeErrorResult.unknownProposal ∧
    stakeErrorHandler "revert" true false 10 10 10 = StakeErrorResult.original "revert" :=
  ⟨c6_error_classification_precedence.1 "revert" 0 10 0,
   c6_error_classification_precedence.2.1 "revert" 10 10 10 (by decide) (by decide)⟩

/-! ## Token constructor (Token.constructor) -/

/-- Embedding of the `Token` constructor.  The `address` argument is
`Option String` (`none` models `undefined`/`null`); a falsy address
(`none` or the empty string) throws
`No address provided - cannot create Token instance` before any instance
exists, and a truthy address is passed to `isAddress` — abstracted as the
parameter `isAddr`, since the utility lives outside this module — before
the constructor returns the instance's address. -/
def tokenConstructor (isAddr : String → Except String Unit)
    (address : Option String) : Except String String :=
  match address with
  | none => Except.error "No address provided - cannot create Token instance"
  | some a =>
    if a = "" then Except.error "No address provided - cannot create Token instance"
    else
      match isAddr a with
      | Except.error e => Except.error e
      | Except.ok _ => Except.ok a

/-- C10: for every falsy address (undefined, null, empty string) the
constructor throws and no instance is created, whatever `isAddress` does;
for every truthy address the result is exactly what the `isAddress`
validation dictates: its failure aborts the constructor and its success
yields the instance. -/
theorem c10_token_constructor_guard :
    ∀ isAddr : String → Except String Unit,
      tokenConstructor isAddr none =
        Except.error "No address provided - cannot create Token instance" ∧
      tokenConstructor isAddr (some "") =
        Except.error "No address provided - cannot create Token instance" ∧
      (∀ a : String, a ≠ "" →
        (∀ e, isAddr a = Except.error e →
          tokenConstructor isAddr (some a) = Except.error e) ∧
        (isAddr a = Except.ok () → tokenConstructor isAddr (some a) = Except.ok a)) := by
  intro isAddr
  refine ⟨rfl, rfl, fun a ha => ⟨fun e he => ?_, fun hok => ?_⟩⟩
  · rw [tokenConstructor, if_neg ha, he]
  · rw [tokenConstructor, if_neg ha, hok]

/-- C10 witness: with a validator accepting everything, the constructor
rejects the empty address and accepts a non-empty one. -/
theorem c10_token_constructor_guard_witness :
    tokenConstructor (fun _ => Except.ok ()) (some "") =
      Except.error "No address provided - cannot create Token instance" ∧
    tokenConstructor (fun _ => Except.ok ()) (some "0x1") = Except.ok "0x1" :=
  ⟨(c10_token_constructor_guard (fun _ => Except.ok ())).2.1,
   ((c10_token_constructor_guard (fun _ => Except.ok ())).2.2 "0x1" (by decide)).2 rfl⟩

/-- C8 counterexample: with one registered key holding two live
subscriptions (`ethBalance` called twice, both returned observables
subscribed), a feed failure reaches the key's stored observer but the
resulting teardown only decrements the count from two to one: the record
survives, the registry stays non-empty, and `blockHeaderSubscription` is
never unsubscribed — the feed is not torn down, against the claim's
unconditional teardown. -/
theorem c8_feed_failure_broadcast_counterexample :
    (feedError ⟨[("a", ⟨true, some 3, 2⟩)], 1⟩).2.observedAccounts =
      [("a", ⟨true, some 3, 1⟩)] ∧
    (feedError ⟨[("a", ⟨true, some 3, 2⟩)], 1⟩).2.feedCount ≠ 0 := by
  decide
